import Mathlib

set_option maxHeartbeats 1000000

/-!
Verification development for the Azure Web PubSub request/response proxy.

The embedding models `packages/proxy-server/src/proxy-server.ts` (gateway,
event router, auth, readiness) and `packages/local-api/src/echo.ts` (remote
forwarder).  JSON values are modelled by the mutual inductive `Json` below;
numbers are modelled as integers (the envelopes only carry integer HTTP
status codes; float syntax is out of scope).  `JSON.stringify` and
`JSON.parse` are modelled by `Json.stringify` and `Json.parse`.
-/

mutual

inductive Json where
  | null : Json
  | bool (b : Bool) : Json
  | num (n : Int) : Json
  | str (s : String) : Json
  | arr (elems : JsonArr) : Json
  | obj (fields : JsonObj) : Json
  deriving DecidableEq

inductive JsonArr where
  | nil : JsonArr
  | cons (hd : Json) (tl : JsonArr) : JsonArr
  deriving DecidableEq

inductive JsonObj where
  | nil : JsonObj
  | cons (key : String) (val : Json) (tl : JsonObj) : JsonObj
  deriving DecidableEq

end

/-- Property read on a JS object built by `JSON.parse`: later duplicate keys
overwrite earlier ones, so a read returns the last binding. -/
def JsonObj.lookupLast (k : String) : JsonObj → Option Json
  | .nil => none
  | .cons k2 v tl =>
    match JsonObj.lookupLast k tl with
    | some r => some r
    | none => if k2 = k then some v else none

/-- JS property access `data.k` (returns none, i.e. undefined, on non-objects). -/
def Json.getProp : Json → String → Option Json
  | .obj fs, k => fs.lookupLast k
  | _, _ => none

/-- Decimal digit character (0 ≤ n ≤ 9). -/
def digitChar : Nat → Char
  | 0 => '0'
  | 1 => '1'
  | 2 => '2'
  | 3 => '3'
  | 4 => '4'
  | 5 => '5'
  | 6 => '6'
  | 7 => '7'
  | 8 => '8'
  | _ => '9'

/-- Lower-case hex digit character (0 ≤ n ≤ 15). -/
def hexDigit : Nat → Char
  | 0 => '0'
  | 1 => '1'
  | 2 => '2'
  | 3 => '3'
  | 4 => '4'
  | 5 => '5'
  | 6 => '6'
  | 7 => '7'
  | 8 => '8'
  | 9 => '9'
  | 10 => 'a'
  | 11 => 'b'
  | 12 => 'c'
  | 13 => 'd'
  | 14 => 'e'
  | _ => 'f'

/-- Decimal digit characters of a natural number, most significant first. -/
def natDigits (n : Nat) : List Char :=
  if _h : n < 10 then [digitChar n]
  else natDigits (n / 10) ++ [digitChar (n % 10)]
termination_by n
decreasing_by
  exact Nat.div_lt_self (by omega) (by omega)

/-- Decimal characters of an integer, as printed by `JSON.stringify`. -/
def intChars (n : Int) : List Char :=
  if n < 0 then '-' :: natDigits n.natAbs else natDigits n.natAbs

/-- The escape sequence `JSON.stringify` emits for one character inside a
string literal: quote and backslash get a backslash escape, control
characters get a named escape or a u-escape, everything else is verbatim. -/
def escapeChar (c : Char) : List Char :=
  if c = '"' then ['\\', '"']
  else if c = '\\' then ['\\', '\\']
  else if c = '\x08' then ['\\', 'b']
  else if c = '\x09' then ['\\', 't']
  else if c = '\x0a' then ['\\', 'n']
  else if c = '\x0c' then ['\\', 'f']
  else if c = '\x0d' then ['\\', 'r']
  else if c.toNat < 32 then
    ['\\', 'u', '0', '0', hexDigit (c.toNat / 16), hexDigit (c.toNat % 16)]
  else [c]

def escapeChars : List Char → List Char
  | [] => []
  | c :: cs => escapeChar c ++ escapeChars cs

mutual

/-- Characters of the `JSON.stringify` serialization of a value. -/
def stringifyChars : Json → List Char
  | .null => "null".data
  | .bool true => "true".data
  | .bool false => "false".data
  | .num n => intChars n
  | .str s => '"' :: (escapeChars s.data ++ ['"'])
  | .arr .nil => ['[', ']']
  | .arr (.cons v vs) => '[' :: (stringifyChars v ++ arrTailChars vs)
  | .obj .nil => ['\x7b', '\x7d']
  | .obj (.cons k v fs) =>
    '\x7b' :: ('"' :: (escapeChars k.data ++ '"' :: ':' :: stringifyChars v) ++ objTailChars fs)

def arrTailChars : JsonArr → List Char
  | .nil => [']']
  | .cons v vs => ',' :: (stringifyChars v ++ arrTailChars vs)

def objTailChars : JsonObj → List Char
  | .nil => ['\x7d']
  | .cons k v fs =>
    ',' :: ('"' :: (escapeChars k.data ++ '"' :: ':' :: stringifyChars v) ++ objTailChars fs)

end

/-- Model of `JSON.stringify` (as performed at `publish`). -/
def Json.stringify (v : Json) : String := String.mk (stringifyChars v)

def isWsChar (c : Char) : Bool :=
  c = ' ' || c = '\t' || c = '\n' || c = '\r'

def skipWs : List Char → List Char
  | [] => []
  | c :: cs => if isWsChar c then skipWs cs else c :: cs

def hexVal (c : Char) : Option Nat :=
  if '0' ≤ c ∧ c ≤ '9' then some (c.toNat - 48)
  else if 'a' ≤ c ∧ c ≤ 'f' then some (c.toNat - 87)
  else if 'A' ≤ c ∧ c ≤ 'F' then some (c.toNat - 55)
  else none

/-- Decode one backslash escape (other than a u-escape). -/
def unescapeChar (c : Char) : Option Char :=
  if c = '"' then some '"'
  else if c = '\\' then some '\\'
  else if c = '/' then some '/'
  else if c = 'b' then some '\x08'
  else if c = 'f' then some '\x0c'
  else if c = 'n' then some '\x0a'
  else if c = 'r' then some '\x0d'
  else if c = 't' then some '\x09'
  else none

/-- Parse the body of a JSON string literal after the opening quote, up to and
including the closing quote. Returns the decoded characters and the rest. -/
def parseStringBody : List Char → Option (List Char × List Char)
  | [] => none
  | c :: cs =>
    if c = '"' then some ([], cs)
    else if c = '\\' then
      match cs with
      | [] => none
      | e :: cs2 =>
        if e = 'u' then
          match cs2 with
          | h1 :: h2 :: h3 :: h4 :: cs3 =>
            match hexVal h1, hexVal h2, hexVal h3, hexVal h4 with
            | some a, some b, some c3, some d =>
              (parseStringBody cs3).map fun p =>
                (Char.ofNat (((a * 16 + b) * 16 + c3) * 16 + d) :: p.1, p.2)
            | _, _, _, _ => none
          | _ => none
        else
          match unescapeChar e with
          | some u => (parseStringBody cs2).map fun p => (u :: p.1, p.2)
          | none => none
    else (parseStringBody cs).map fun p => (c :: p.1, p.2)

def digitVal (c : Char) : Nat := c.toNat - 48

/-- Consume a maximal run of decimal digits, accumulating a value. -/
def parseDigits : List Char → Nat → Nat × List Char
  | [], acc => (acc, [])
  | c :: cs, acc =>
    if c.isDigit then parseDigits cs (acc * 10 + digitVal c) else (acc, c :: cs)

/-- Parse a JSON integer numeral (optional minus sign, digit run). -/
def parseNum : List Char → Option (Json × List Char)
  | [] => none
  | c :: cs =>
    if c = '-' then
      match cs with
      | [] => none
      | d :: ds =>
        if d.isDigit then
          let p := parseDigits ds (digitVal d)
          some (.num (-(p.1 : Int)), p.2)
        else none
    else if c.isDigit then
      let p := parseDigits cs (digitVal c)
      some (.num (p.1 : Int), p.2)
    else none

/-- Expect an exact literal character sequence. -/
def afterLit : List Char → List Char → Option (List Char)
  | [], cs => some cs
  | p :: ps, c :: cs => if c = p then afterLit ps cs else none
  | _ :: _, [] => none

mutual

/-- Recursive-descent JSON value parser (fuel-indexed for termination). -/
def parseVal : Nat → List Char → Option (Json × List Char)
  | 0, _ => none
  | fuel + 1, cs0 =>
    match skipWs cs0 with
    | [] => none
    | c :: cs =>
      if c = 'n' then
        match afterLit ['u', 'l', 'l'] cs with
        | some rest => some (.null, rest)
        | none => none
      else if c = 't' then
        match afterLit ['r', 'u', 'e'] cs with
        | some rest => some (.bool true, rest)
        | none => none
      else if c = 'f' then
        match afterLit ['a', 'l', 's', 'e'] cs with
        | some rest => some (.bool false, rest)
        | none => none
      else if c = '"' then
        (parseStringBody cs).map fun p => (.str (String.mk p.1), p.2)
      else if c = '[' then
        match skipWs cs with
        | [] => none
        | c2 :: cs2 =>
          if c2 = ']' then some (.arr .nil, cs2)
          else
            match parseVal fuel (c2 :: cs2) with
            | some (v, rest2) =>
              match parseArrTail fuel rest2 with
              | some (vs, rest3) => some (.arr (.cons v vs), rest3)
              | none => none
            | none => none
      else if c = '\x7b' then
        match skipWs cs with
        | [] => none
        | c2 :: cs2 =>
          if c2 = '\x7d' then some (.obj .nil, cs2)
          else if c2 = '"' then
            match parseStringBody cs2 with
            | some (kcs, restk) =>
              match skipWs restk with
              | [] => none
              | c3 :: cs3 =>
                if c3 = ':' then
                  match parseVal fuel cs3 with
                  | some (v, rest2) =>
                    match parseObjTail fuel rest2 with
                    | some (fs, rest3) =>
                      some (.obj (.cons (String.mk kcs) v fs), rest3)
                    | none => none
                  | none => none
                else none
            | none => none
          else none
      else parseNum (c :: cs)

/-- After one array element: `(ws ',' value)* ws ']'`. -/
def parseArrTail : Nat → List Char → Option (JsonArr × List Char)
  | 0, _ => none
  | fuel + 1, cs =>
    match skipWs cs with
    | [] => none
    | c :: rest =>
      if c = ']' then some (.nil, rest)
      else if c = ',' then
        match parseVal fuel rest with
        | some (v, rest2) =>
          match parseArrTail fuel rest2 with
          | some (vs, rest3) => some (.cons v vs, rest3)
          | none => none
        | none => none
      else none

/-- After one object member: `(ws ',' member)* ws brace-close`. -/
def parseObjTail : Nat → List Char → Option (JsonObj × List Char)
  | 0, _ => none
  | fuel + 1, cs =>
    match skipWs cs with
    | [] => none
    | c :: rest =>
      if c = '\x7d' then some (.nil, rest)
      else if c = ',' then
        match skipWs rest with
        | [] => none
        | c2 :: cs2 =>
          if c2 = '"' then
            match parseStringBody cs2 with
            | some (kcs, restk) =>
              match skipWs restk with
              | [] => none
              | c3 :: cs3 =>
                if c3 = ':' then
                  match parseVal fuel cs3 with
                  | some (v, rest2) =>
                    match parseObjTail fuel rest2 with
                    | some (fs, rest3) => some (.cons (String.mk kcs) v fs, rest3)
                    | none => none
                  | none => none
                else none
            | none => none
          else none
      else none

end

/-- Model of `JSON.parse` (none models a thrown SyntaxError). -/
def Json.parse (s : String) : Option Json :=
  match parseVal (s.data.length + 1) s.data with
  | some (v, rest) => if skipWs rest = [] then some v else none
  | none => none

/-- `parseJSON` of proxy-server.ts applied to a string payload: try
`JSON.parse`, fall back to the raw string on failure. -/
def parseJSONStr (s : String) : Json :=
  match Json.parse s with
  | some v => v
  | none => .str s

/-- `parseJSON` of proxy-server.ts: null and objects pass through, strings
get a tolerant parse, any other value passes through. -/
def parseJSON : Json → Json
  | .str s => parseJSONStr s
  | v => v

/-- No leading decimal digit (so a numeral before this tail parses maximally). -/
def noLeadDigit : List Char → Bool
  | [] => true
  | c :: _ => !c.isDigit

mutual

/-- Fuel sufficient for `parseVal` to parse the serialization of a value. -/
def jsonFuel : Json → Nat
  | .null => 1
  | .bool _ => 1
  | .num _ => 1
  | .str _ => 1
  | .arr .nil => 1
  | .arr (.cons v vs) => 1 + max (jsonFuel v) (arrFuel vs)
  | .obj .nil => 1
  | .obj (.cons _ v fs) => 1 + max (jsonFuel v) (objFuel fs)

def arrFuel : JsonArr → Nat
  | .nil => 1
  | .cons v vs => 1 + max (jsonFuel v) (arrFuel vs)

def objFuel : JsonObj → Nat
  | .nil => 1
  | .cons _ v fs => 1 + max (jsonFuel v) (objFuel fs)

end

/-! ### Round-trip lemmas for the JSON codec -/

theorem skipWs_not_ws {c : Char} (cs : List Char) (h : isWsChar c = false) :
    skipWs (c :: cs) = c :: cs := by
  simp [skipWs, h]

theorem digitChar_isDigit : ∀ d, d < 10 → (digitChar d).isDigit = true := by decide

theorem digitVal_digitChar : ∀ d, d < 10 → digitVal (digitChar d) = d := by decide

theorem hexVal_hexDigit : ∀ m, m < 16 → hexVal (hexDigit m) = some m := by decide

theorem digitChar_shape : ∀ d, d < 10 →
    isWsChar (digitChar d) = false ∧ digitChar d ≠ 'n' ∧ digitChar d ≠ 't' ∧
    digitChar d ≠ 'f' ∧ digitChar d ≠ '"' ∧ digitChar d ≠ '[' ∧
    digitChar d ≠ '\x7b' ∧ digitChar d ≠ '-' ∧ digitChar d ≠ ']' ∧
    digitChar d ≠ ',' ∧ digitChar d ≠ '\x7d' ∧ digitChar d ≠ ':' := by decide

theorem natDigits_spec (n : Nat) : ∃ d t, d < 10 ∧ natDigits n = digitChar d :: t := by
  induction n using Nat.strong_induction_on with
  | _ n ih =>
    by_cases h : n < 10
    · exact ⟨n, [], h, by rw [natDigits]; simp [h]⟩
    · obtain ⟨d, t, hd, ht⟩ := ih (n / 10) (Nat.div_lt_self (by omega) (by omega))
      refine ⟨d, t ++ [digitChar (n % 10)], hd, ?thf⟩
      rw [natDigits]
      simp [h, ht]

theorem natDigits_all_digit (n : Nat) : ∀ c ∈ natDigits n, c.isDigit = true := by
  induction n using Nat.strong_induction_on with
  | _ n ih =>
    intro c hc
    by_cases h : n < 10
    · rw [natDigits] at hc
      simp [h] at hc
      subst hc
      exact digitChar_isDigit n h
    · rw [natDigits] at hc
      simp [h] at hc
      rcases hc with hc | hc
      · exact ih (n / 10) (Nat.div_lt_self (by omega) (by omega)) c hc
      · subst hc
        exact digitChar_isDigit (n % 10) (Nat.mod_lt n (by omega))

theorem natDigits_foldl (n : Nat) : ∀ acc : Nat,
    (natDigits n).foldl (fun a c => a * 10 + digitVal c) acc =
      acc * 10 ^ (natDigits n).length + n := by
  induction n using Nat.strong_induction_on with
  | _ n ih =>
    intro acc
    by_cases h : n < 10
    · rw [natDigits]
      simp [h, digitVal_digitChar n h]
    · rw [natDigits]
      simp only [h, dite_false, List.foldl_append, List.length_append,
        List.foldl_cons, List.foldl_nil, List.length_cons, List.length_nil]
      rw [ih (n / 10) (Nat.div_lt_self (by omega) (by omega)) acc]
      rw [digitVal_digitChar (n % 10) (Nat.mod_lt n (by omega))]
      calc (acc * 10 ^ (natDigits (n / 10)).length + n / 10) * 10 + n % 10
          = acc * 10 ^ (natDigits (n / 10)).length * 10 + (n / 10 * 10 + n % 10) := by ring
        _ = acc * 10 ^ ((natDigits (n / 10)).length + (0 + 1)) + n := by
            rw [pow_succ, ← Nat.mul_assoc]
            have := Nat.div_add_mod n 10
            omega

theorem parseDigits_append (ds : List Char) : ∀ (rest : List Char) (acc : Nat),
    (∀ c ∈ ds, c.isDigit = true) → noLeadDigit rest = true →
    parseDigits (ds ++ rest) acc =
      (ds.foldl (fun a c => a * 10 + digitVal c) acc, rest) := by
  induction ds with
  | nil =>
    intro rest acc _ hrest
    cases rest with
    | nil => simp [parseDigits]
    | cons c cs =>
      simp only [noLeadDigit, Bool.not_eq_true'] at hrest
      simp [parseDigits, hrest]
  | cons d ds ih =>
    intro rest acc hds hrest
    simp only [List.cons_append, parseDigits, hds d (by simp), if_true, List.append_eq]
    rw [ih rest (acc * 10 + digitVal d) (fun c hc => hds c (by simp [hc])) hrest]
    simp

theorem parseNum_intChars (n : Int) (rest : List Char) (hrest : noLeadDigit rest = true) :
    parseNum (intChars n ++ rest) = some (.num n, rest) := by
  obtain ⟨d, t, hd, ht⟩ := natDigits_spec n.natAbs
  have hfold : t.foldl (fun a c => a * 10 + digitVal c) d = n.natAbs := by
    have h0 := natDigits_foldl n.natAbs 0
    rw [ht] at h0
    simpa [digitVal_digitChar d hd] using h0
  have htdig : ∀ c ∈ t, c.isDigit = true := by
    intro c hc
    exact natDigits_all_digit n.natAbs c (by rw [ht]; simp [hc])
  unfold intChars
  by_cases hneg : n < 0
  · rw [if_pos hneg, ht]
    simp only [List.cons_append]
    rw [parseNum.eq_def]
    simp [digitChar_isDigit d hd, digitVal_digitChar d hd,
      parseDigits_append t rest d htdig hrest, hfold]
    rw [abs_of_neg hneg, neg_neg]
  · rw [if_neg hneg, ht]
    simp only [List.cons_append]
    rw [parseNum.eq_def]
    simp [(digitChar_shape d hd).2.2.2.2.2.2.2.1, digitChar_isDigit d hd,
      digitVal_digitChar d hd, parseDigits_append t rest d htdig hrest, hfold]
    omega

theorem charOfNat_toNat (c : Char) (h : c.toNat < 32) : Char.ofNat c.toNat = c := by
  have hv : c.toNat.isValidChar := Or.inl (by omega)
  unfold Char.ofNat
  rw [dif_pos hv]
  apply Char.eq_of_val_eq
  show UInt32.ofNat' c.toNat _ = c.val
  apply UInt32.eq_of_toBitVec_eq
  apply BitVec.eq_of_toNat_eq
  have h2 : ∀ hlt, (UInt32.ofNat' c.toNat hlt).toBitVec.toNat = c.toNat := fun _ => rfl
  rw [h2]
  rfl

theorem parseStringBody_escape (cs : List Char) : ∀ rest : List Char,
    parseStringBody (escapeChars cs ++ '"' :: rest) = some (cs, rest) := by
  induction cs with
  | nil =>
    intro rest
    show parseStringBody ('"' :: rest) = _
    rw [parseStringBody.eq_def]
    simp
  | cons c cs ih =>
    intro rest
    show parseStringBody ((escapeChar c ++ escapeChars cs) ++ '"' :: rest) = _
    rw [List.append_assoc]
    by_cases h1 : c = '"'
    · subst h1
      rw [show escapeChar '"' = ['\\', '"'] from by simp [escapeChar]]
      simp only [List.cons_append]
      rw [parseStringBody.eq_def]
      simp [unescapeChar, ih rest]
    · by_cases h2 : c = '\\'
      · subst h2
        rw [show escapeChar '\\' = ['\\', '\\'] from by simp [escapeChar]]
        simp only [List.cons_append]
        rw [parseStringBody.eq_def]
        simp [unescapeChar, ih rest]
      · by_cases h3 : c = '\x08'
        · subst h3
          rw [show escapeChar '\x08' = ['\\', 'b'] from by simp [escapeChar]]
          simp only [List.cons_append]
          rw [parseStringBody.eq_def]
          simp [unescapeChar, ih rest]
        · by_cases h4 : c = '\x09'
          · subst h4
            rw [show escapeChar '\x09' = ['\\', 't'] from by simp [escapeChar]]
            simp only [List.cons_append]
            rw [parseStringBody.eq_def]
            simp [unescapeChar, ih rest]
          · by_cases h5 : c = '\x0a'
            · subst h5
              rw [show escapeChar '\x0a' = ['\\', 'n'] from by simp [escapeChar]]
              simp only [List.cons_append]
              rw [parseStringBody.eq_def]
              simp [unescapeChar, ih rest]
            · by_cases h6 : c = '\x0c'
              · subst h6
                rw [show escapeChar '\x0c' = ['\\', 'f'] from by simp [escapeChar]]
                simp only [List.cons_append]
                rw [parseStringBody.eq_def]
                simp [unescapeChar, ih rest]
              · by_cases h7 : c = '\x0d'
                · subst h7
                  rw [show escapeChar '\x0d' = ['\\', 'r'] from by simp [escapeChar]]
                  simp only [List.cons_append]
                  rw [parseStringBody.eq_def]
                  simp [unescapeChar, ih rest]
                · by_cases h8 : c.toNat < 32
                  · have he : escapeChar c =
                        ['\\', 'u', '0', '0', hexDigit (c.toNat / 16), hexDigit (c.toNat % 16)] := by
                      simp [escapeChar, h1, h2, h3, h4, h5, h6, h7, h8]
                    rw [he]
                    simp only [List.cons_append]
                    rw [parseStringBody.eq_def]
                    simp only [show (('\\' : Char) = '"') = False from by simp,
                      show (('\\' : Char) = '\\') = True from by simp,
                      show (('u' : Char) = 'u') = True from by simp,
                      if_true, if_false, ite_true, ite_false]
                    rw [show hexVal '0' = some 0 from by decide,
                      hexVal_hexDigit (c.toNat / 16) (by omega),
                      hexVal_hexDigit (c.toNat % 16) (by omega)]
                    have harith : ((0 * 16 + 0) * 16 + c.toNat / 16) * 16 + c.toNat % 16
                        = c.toNat := by omega
                    simp only [harith]
                    simp [charOfNat_toNat c h8, ih rest]
                  · have he : escapeChar c = [c] := by
                      simp [escapeChar, h1, h2, h3, h4, h5, h6, h7, h8]
                    rw [he]
                    simp only [List.cons_append]
                    rw [parseStringBody.eq_def]
                    simp [h1, h2, ih rest]

theorem intChars_shape (n : Int) : ∃ c t, intChars n = c :: t ∧ isWsChar c = false ∧
    c ≠ 'n' ∧ c ≠ 't' ∧ c ≠ 'f' ∧ c ≠ '"' ∧ c ≠ '[' ∧ c ≠ '\x7b' ∧ c ≠ ']' := by
  obtain ⟨d, t, hd, ht⟩ := natDigits_spec n.natAbs
  unfold intChars
  by_cases hneg : n < 0
  · rw [if_pos hneg, ht]
    exact ⟨'-', digitChar d :: t, rfl, by decide, by decide, by decide, by decide,
      by decide, by decide, by decide, by decide⟩
  · rw [if_neg hneg, ht]
    obtain ⟨hw, p1, p2, p3, p4, p5, p6, _, p8, _, _, _⟩ := digitChar_shape d hd
    exact ⟨digitChar d, t, rfl, hw, p1, p2, p3, p4, p5, p6, p8⟩

theorem stringify_head (v : Json) : ∃ c t, stringifyChars v = c :: t ∧
    isWsChar c = false ∧ c ≠ ']' := by
  cases v with
  | null => exact ⟨'n', _, rfl, by decide, by decide⟩
  | bool b =>
    cases b with
    | true => exact ⟨'t', _, rfl, by decide, by decide⟩
    | false => exact ⟨'f', _, rfl, by decide, by decide⟩
  | num n =>
    obtain ⟨c, t, hct, hw, _, _, _, _, _, _, h9⟩ := intChars_shape n
    exact ⟨c, t, hct, hw, h9⟩
  | str s => exact ⟨'"', _, rfl, by decide, by decide⟩
  | arr xs =>
    cases xs with
    | nil => exact ⟨'[', _, rfl, by decide, by decide⟩
    | cons v vs => exact ⟨'[', _, rfl, by decide, by decide⟩
  | obj fs =>
    cases fs with
    | nil => exact ⟨'\x7b', _, rfl, by decide, by decide⟩
    | cons k v fs2 => exact ⟨'\x7b', _, rfl, by decide, by decide⟩

theorem noLead_arrTail (vs : JsonArr) (rest : List Char) :
    noLeadDigit (arrTailChars vs ++ rest) = true := by
  cases vs with
  | nil => rfl
  | cons v vs2 => rfl

theorem noLead_objTail (fs : JsonObj) (rest : List Char) :
    noLeadDigit (objTailChars fs ++ rest) = true := by
  cases fs with
  | nil => rfl
  | cons k v fs2 => rfl

mutual

theorem parseVal_stringify (v : Json) : ∀ (rest : List Char) (fuel : Nat),
    jsonFuel v ≤ fuel → noLeadDigit rest = true →
    parseVal fuel (stringifyChars v ++ rest) = some (v, rest) := by
  cases v with
  | null =>
    intro rest fuel hf hr
    cases fuel with
    | zero => simp [jsonFuel] at hf
    | succ f =>
      rw [show stringifyChars .null = ['n', 'u', 'l', 'l'] from rfl, parseVal.eq_def]
      simp only [List.cons_append]
      rw [skipWs_not_ws _ (by decide)]
      simp [afterLit]
  | bool b =>
    intro rest fuel hf hr
    cases fuel with
    | zero => simp [jsonFuel] at hf
    | succ f =>
      cases b with
      | true =>
        rw [show stringifyChars (.bool true) = ['t', 'r', 'u', 'e'] from rfl, parseVal.eq_def]
        simp only [List.cons_append]
        rw [skipWs_not_ws _ (by decide)]
        simp [afterLit]
      | false =>
        rw [show stringifyChars (.bool false) = ['f', 'a', 'l', 's', 'e'] from rfl,
          parseVal.eq_def]
        simp only [List.cons_append]
        rw [skipWs_not_ws _ (by decide)]
        simp [afterLit]
  | num n =>
    intro rest fuel hf hr
    cases fuel with
    | zero => simp [jsonFuel] at hf
    | succ f =>
      obtain ⟨c, t, hct, hw, p1, p2, p3, p4, p5, p6, _⟩ := intChars_shape n
      rw [show stringifyChars (.num n) = intChars n from rfl, parseVal.eq_def, hct]
      simp only [List.cons_append]
      rw [skipWs_not_ws _ hw]
      simp only [p1, p2, p3, p4, p5, p6, if_false, ite_false]
      rw [← List.cons_append, ← hct]
      exact parseNum_intChars n rest hr
  | str s =>
    intro rest fuel hf hr
    cases fuel with
    | zero => simp [jsonFuel] at hf
    | succ f =>
      rw [show stringifyChars (.str s) = '"' :: (escapeChars s.data ++ ['"']) from rfl,
        parseVal.eq_def]
      simp only [List.cons_append, List.append_assoc, List.singleton_append]
      rw [skipWs_not_ws _ (by decide)]
      simp [parseStringBody_escape s.data rest]
  | arr xs =>
    cases xs with
    | nil =>
      intro rest fuel hf hr
      cases fuel with
      | zero => simp [jsonFuel] at hf
      | succ f =>
        rw [show stringifyChars (.arr .nil) = ['[', ']'] from rfl, parseVal.eq_def]
        simp only [List.cons_append]
        rw [skipWs_not_ws _ (by decide)]
        simp only [show (('[' : Char) = 'n') = False from by decide,
          show (('[' : Char) = 't') = False from by decide,
          show (('[' : Char) = 'f') = False from by decide,
          show (('[' : Char) = '"') = False from by decide,
          show (('[' : Char) = '[') = True from by decide, if_false, if_true,
          ite_false, ite_true]
        rw [skipWs_not_ws _ (by decide)]
        simp
    | cons v vs =>
      intro rest fuel hf hr
      cases fuel with
      | zero => simp [jsonFuel] at hf
      | succ f =>
        have hm1 := Nat.le_max_left (jsonFuel v) (arrFuel vs)
        have hm2 := Nat.le_max_right (jsonFuel v) (arrFuel vs)
        simp only [jsonFuel] at hf
        have hv : jsonFuel v ≤ f := by omega
        have hvs : arrFuel vs ≤ f := by omega
        obtain ⟨c0, t0, hsh, hw0, hnb⟩ := stringify_head v
        rw [show stringifyChars (.arr (.cons v vs))
            = '[' :: (stringifyChars v ++ arrTailChars vs) from rfl, parseVal.eq_def]
        simp only [List.cons_append, List.append_assoc]
        rw [skipWs_not_ws _ (by decide)]
        simp only [show (('[' : Char) = 'n') = False from by decide,
          show (('[' : Char) = 't') = False from by decide,
          show (('[' : Char) = 'f') = False from by decide,
          show (('[' : Char) = '"') = False from by decide,
          show (('[' : Char) = '[') = True from by decide, if_false, if_true,
          ite_false, ite_true]
        rw [hsh]
        simp only [List.cons_append]
        rw [skipWs_not_ws _ hw0]
        simp only [hnb, if_false, ite_false]
        rw [← List.cons_append, ← hsh,
          parseVal_stringify v (arrTailChars vs ++ rest) f hv (noLead_arrTail vs rest)]
        dsimp only
        rw [parseArrTail_stringify vs rest f hvs hr]
  | obj fs =>
    cases fs with
    | nil =>
      intro rest fuel hf hr
      cases fuel with
      | zero => simp [jsonFuel] at hf
      | succ f =>
        rw [show stringifyChars (.obj .nil) = ['\x7b', '\x7d'] from rfl, parseVal.eq_def]
        simp only [List.cons_append]
        rw [skipWs_not_ws _ (by decide)]
        simp only [show (('\x7b' : Char) = 'n') = False from by decide,
          show (('\x7b' : Char) = 't') = False from by decide,
          show (('\x7b' : Char) = 'f') = False from by decide,
          show (('\x7b' : Char) = '"') = False from by decide,
          show (('\x7b' : Char) = '[') = False from by decide,
          show (('\x7b' : Char) = '\x7b') = True from by decide, if_false, if_true,
          ite_false, ite_true]
        rw [skipWs_not_ws _ (by decide)]
        simp
    | cons k v fs2 =>
      intro rest fuel hf hr
      cases fuel with
      | zero => simp [jsonFuel] at hf
      | succ f =>
        have hm1 := Nat.le_max_left (jsonFuel v) (objFuel fs2)
        have hm2 := Nat.le_max_right (jsonFuel v) (objFuel fs2)
        simp only [jsonFuel] at hf
        have hv : jsonFuel v ≤ f := by omega
        have hfs : objFuel fs2 ≤ f := by omega
        rw [show stringifyChars (.obj (.cons k v fs2))
            = '\x7b' :: ('"' :: (escapeChars k.data ++ '"' :: ':' :: stringifyChars v)
              ++ objTailChars fs2) from rfl, parseVal.eq_def]
        simp only [List.cons_append, List.append_assoc]
        rw [skipWs_not_ws _ (by decide)]
        simp only [show (('\x7b' : Char) = 'n') = False from by decide,
          show (('\x7b' : Char) = 't') = False from by decide,
          show (('\x7b' : Char) = 'f') = False from by decide,
          show (('\x7b' : Char) = '"') = False from by decide,
          show (('\x7b' : Char) = '[') = False from by decide,
          show (('\x7b' : Char) = '\x7b') = True from by decide, if_false, if_true,
          ite_false, ite_true]
        rw [skipWs_not_ws _ (by decide)]
        simp only [show (('"' : Char) = '\x7d') = False from by decide,
          show (('"' : Char) = '"') = True from by decide, if_false, if_true,
          ite_false, ite_true]
        rw [parseStringBody_escape k.data
          (':' :: (stringifyChars v ++ (objTailChars fs2 ++ rest)))]
        simp only []
        rw [skipWs_not_ws _ (by decide)]
        simp only [show ((':' : Char) = ':') = True from by decide, if_true, ite_true]
        rw [parseVal_stringify v (objTailChars fs2 ++ rest) f hv (noLead_objTail fs2 rest)]
        dsimp only
        rw [parseObjTail_stringify fs2 rest f hfs hr]

theorem parseArrTail_stringify (vs : JsonArr) : ∀ (rest : List Char) (fuel : Nat),
    arrFuel vs ≤ fuel → noLeadDigit rest = true →
    parseArrTail fuel (arrTailChars vs ++ rest) = some (vs, rest) := by
  cases vs with
  | nil =>
    intro rest fuel hf hr
    cases fuel with
    | zero => simp [arrFuel] at hf
    | succ f =>
      rw [show arrTailChars .nil = [']'] from rfl, parseArrTail.eq_def]
      simp only [List.cons_append, List.nil_append]
      rw [skipWs_not_ws _ (by decide)]
      simp
  | cons v vs2 =>
    intro rest fuel hf hr
    cases fuel with
    | zero => simp [arrFuel] at hf
    | succ f =>
      have hm1 := Nat.le_max_left (jsonFuel v) (arrFuel vs2)
      have hm2 := Nat.le_max_right (jsonFuel v) (arrFuel vs2)
      simp only [arrFuel] at hf
      have hv : jsonFuel v ≤ f := by omega
      have hvs : arrFuel vs2 ≤ f := by omega
      rw [show arrTailChars (.cons v vs2)
          = ',' :: (stringifyChars v ++ arrTailChars vs2) from rfl, parseArrTail.eq_def]
      simp only [List.cons_append, List.append_assoc]
      rw [skipWs_not_ws _ (by decide)]
      simp only [show ((',' : Char) = ']') = False from by decide,
        show ((',' : Char) = ',') = True from by decide, if_false, if_true,
        ite_false, ite_true]
      rw [parseVal_stringify v (arrTailChars vs2 ++ rest) f hv (noLead_arrTail vs2 rest)]
      dsimp only
      rw [parseArrTail_stringify vs2 rest f hvs hr]

theorem parseObjTail_stringify (fs : JsonObj) : ∀ (rest : List Char) (fuel : Nat),
    objFuel fs ≤ fuel → noLeadDigit rest = true →
    parseObjTail fuel (objTailChars fs ++ rest) = some (fs, rest) := by
  cases fs with
  | nil =>
    intro rest fuel hf hr
    cases fuel with
    | zero => simp [objFuel] at hf
    | succ f =>
      rw [show objTailChars .nil = ['\x7d'] from rfl, parseObjTail.eq_def]
      simp only [List.cons_append, List.nil_append]
      rw [skipWs_not_ws _ (by decide)]
      simp
  | cons k v fs2 =>
    intro rest fuel hf hr
    cases fuel with
    | zero => simp [objFuel] at hf
    | succ f =>
      have hm1 := Nat.le_max_left (jsonFuel v) (objFuel fs2)
      have hm2 := Nat.le_max_right (jsonFuel v) (objFuel fs2)
      simp only [objFuel] at hf
      have hv : jsonFuel v ≤ f := by omega
      have hfs : objFuel fs2 ≤ f := by omega
      rw [show objTailChars (.cons k v fs2)
          = ',' :: ('"' :: (escapeChars k.data ++ '"' :: ':' :: stringifyChars v)
            ++ objTailChars fs2) from rfl, parseObjTail.eq_def]
      simp only [List.cons_append, List.append_assoc]
      rw [skipWs_not_ws _ (by decide)]
      simp only [show ((',' : Char) = '\x7d') = False from by decide,
        show ((',' : Char) = ',') = True from by decide, if_false, if_true,
        ite_false, ite_true]
      rw [skipWs_not_ws _ (by decide)]
      simp only [show (('"' : Char) = '"') = True from by decide, if_true, ite_true]
      rw [parseStringBody_escape k.data
        (':' :: (stringifyChars v ++ (objTailChars fs2 ++ rest)))]
      simp only []
      rw [skipWs_not_ws _ (by decide)]
      simp only [show ((':' : Char) = ':') = True from by decide, if_true, ite_true]
      rw [parseVal_stringify v (objTailChars fs2 ++ rest) f hv (noLead_objTail fs2 rest)]
      dsimp only
      rw [parseObjTail_stringify fs2 rest f hfs hr]

end

mutual

theorem jsonFuel_le_length (v : Json) : jsonFuel v ≤ (stringifyChars v).length := by
  cases v with
  | null => decide
  | bool b => cases b <;> decide
  | num n =>
    obtain ⟨c, t, hct, _⟩ := intChars_shape n
    rw [show stringifyChars (.num n) = intChars n from rfl, hct]
    simp [jsonFuel]
  | str s =>
    rw [show stringifyChars (.str s) = '"' :: (escapeChars s.data ++ ['"']) from rfl]
    simp [jsonFuel]
  | arr xs =>
    cases xs with
    | nil => decide
    | cons v vs =>
      have h1 := jsonFuel_le_length v
      have h2 := arrFuel_le_length vs
      have h3 : max (jsonFuel v) (arrFuel vs)
          ≤ (stringifyChars v).length + (arrTailChars vs).length :=
        Nat.max_le.mpr ⟨by omega, by omega⟩
      rw [show stringifyChars (.arr (.cons v vs))
          = '[' :: (stringifyChars v ++ arrTailChars vs) from rfl]
      rw [show jsonFuel (.arr (.cons v vs)) = 1 + max (jsonFuel v) (arrFuel vs) from rfl]
      simp only [List.length_cons, List.length_append]
      omega
  | obj fs =>
    cases fs with
    | nil => decide
    | cons k v fs2 =>
      have h1 := jsonFuel_le_length v
      have h2 := objFuel_le_length fs2
      have h3 : max (jsonFuel v) (objFuel fs2)
          ≤ (stringifyChars v).length + (objTailChars fs2).length :=
        Nat.max_le.mpr ⟨by omega, by omega⟩
      rw [show stringifyChars (.obj (.cons k v fs2))
          = '\x7b' :: ('"' :: (escapeChars k.data ++ '"' :: ':' :: stringifyChars v)
            ++ objTailChars fs2) from rfl]
      rw [show jsonFuel (.obj (.cons k v fs2))
          = 1 + max (jsonFuel v) (objFuel fs2) from rfl]
      simp only [List.length_cons, List.length_append]
      omega

theorem arrFuel_le_length (vs : JsonArr) : arrFuel vs ≤ (arrTailChars vs).length := by
  cases vs with
  | nil => decide
  | cons v vs2 =>
    have h1 := jsonFuel_le_length v
    have h2 := arrFuel_le_length vs2
    have h3 : max (jsonFuel v) (arrFuel vs2)
        ≤ (stringifyChars v).length + (arrTailChars vs2).length :=
      Nat.max_le.mpr ⟨by omega, by omega⟩
    rw [show arrTailChars (.cons v vs2)
        = ',' :: (stringifyChars v ++ arrTailChars vs2) from rfl]
    rw [show arrFuel (.cons v vs2) = 1 + max (jsonFuel v) (arrFuel vs2) from rfl]
    simp only [List.length_cons, List.length_append]
    omega

theorem objFuel_le_length (fs : JsonObj) : objFuel fs ≤ (objTailChars fs).length := by
  cases fs with
  | nil => decide
  | cons k v fs2 =>
    have h1 := jsonFuel_le_length v
    have h2 := objFuel_le_length fs2
    have h3 : max (jsonFuel v) (objFuel fs2)
        ≤ (stringifyChars v).length + (objTailChars fs2).length :=
      Nat.max_le.mpr ⟨by omega, by omega⟩
    rw [show objTailChars (.cons k v fs2)
        = ',' :: ('"' :: (escapeChars k.data ++ '"' :: ':' :: stringifyChars v)
          ++ objTailChars fs2) from rfl]
    rw [show objFuel (.cons k v fs2) = 1 + max (jsonFuel v) (objFuel fs2) from rfl]
    simp only [List.length_cons, List.length_append]
    omega

end

/-- `JSON.parse` inverts `JSON.stringify` on every modelled JSON value. -/
theorem json_parse_stringify (v : Json) : Json.parse (Json.stringify v) = some v := by
  unfold Json.parse Json.stringify
  have hdata : (String.mk (stringifyChars v)).data = stringifyChars v := rfl
  rw [hdata]
  have h := parseVal_stringify v [] ((stringifyChars v).length + 1)
    (by have := jsonFuel_le_length v; omega) rfl
  rw [List.append_nil] at h
  rw [h]
  simp [skipWs]

theorem parseJSONStr_stringify (v : Json) : parseJSONStr (Json.stringify v) = v := by
  unfold parseJSONStr
  rw [json_parse_stringify]

theorem parseJSON_str_stringify (v : Json) : parseJSON (.str (Json.stringify v)) = v := by
  show parseJSONStr (Json.stringify v) = v
  exact parseJSONStr_stringify v

/-! ### Envelopes -/

/-- Request envelope as declared in the worker (`type RequestEnvelope`);
an absent or null body is modelled as `.null` (the gateway always includes
a `body` field, null when the request had none). -/
structure RequestEnvelope where
  requestId : String
  method : String
  path : String
  body : Json
deriving DecidableEq

/-- Response envelope as declared in the worker (`type ResponseEnvelope`). -/
structure ResponseEnvelope where
  requestId : String
  status : Int
  body : Json
deriving DecidableEq

/-- The request message built by handleInvoke (proxy-server.ts lines
161-167), with the source's field order. -/
def encodeRequestEnvelope (e : RequestEnvelope) : Json :=
  .obj (.cons "type" (.str "request")
    (.cons "requestId" (.str e.requestId)
      (.cons "method" (.str e.method)
        (.cons "path" (.str e.path)
          (.cons "body" e.body .nil)))))

/-- The response envelope built by the forwarder (echo.ts line 339), with
the source's field order. -/
def encodeResponseEnvelope (r : ResponseEnvelope) : Json :=
  .obj (.cons "type" (.str "response")
    (.cons "requestId" (.str r.requestId)
      (.cons "status" (.num r.status)
        (.cons "body" r.body .nil))))

/-- Field extraction as the event router performs it on a response payload
(proxy-server.ts lines 225-244): type must be "response" and requestId a
string; status defaults to 200 when missing or non-numeric; body defaults
to null when the field is absent. -/
def decodeResponseEnvelope (payload : Json) : Option ResponseEnvelope :=
  match payload.getProp "type", payload.getProp "requestId" with
  | some (.str t), some (.str rid) =>
    if t = "response" then
      some { requestId := rid
             status :=
               match payload.getProp "status" with
               | some (.num n) => n
               | _ => 200
             body := (payload.getProp "body").getD .null }
    else none
  | _, _ => none

/-- Field extraction for a request payload on the forwarder side.  The
source casts `payload as RequestEnvelope` without checks; this decoder
demands the declared field types, so it is total on well-shaped envelopes. -/
def decodeRequestEnvelope (payload : Json) : Option RequestEnvelope :=
  match payload.getProp "type", payload.getProp "requestId",
      payload.getProp "method", payload.getProp "path" with
  | some (.str t), some (.str rid), some (.str m), some (.str p) =>
    if t = "request" then
      some { requestId := rid, method := m, path := p,
             body := (payload.getProp "body").getD .null }
    else none
  | _, _, _, _ => none

theorem decodeRequest_encode (e : RequestEnvelope) :
    decodeRequestEnvelope (encodeRequestEnvelope e) = some e := rfl

theorem decodeResponse_encode (r : ResponseEnvelope) :
    decodeResponseEnvelope (encodeResponseEnvelope r) = some r := rfl

/-! ### Pending correlation table: per-correlationId settlement machine

`awaitResponse` (proxy-server.ts lines 113-121) registers a map entry and a
timer for one requestId.  Exactly two code paths touch that entry: the timer
callback (lines 115-119: delete then reject) and the response branch of
handleEvents (lines 234-244: clearTimeout, delete, resolve).  The state of
one correlationId is projected out of the map: whether its entry is in the
map, whether its timer is still scheduled, and how its promise settled.
Each step below is one of those atomic (single-event-loop-turn) blocks. -/

inductive Outcome where
  | resolved : Outcome
  | timedOut : Outcome
deriving DecidableEq

structure EntryState where
  inMap : Bool
  timerActive : Bool
  settled : Option Outcome
deriving DecidableEq

/-- State right after `awaitResponse` ran for this correlationId. -/
def registered : EntryState :=
  { inMap := true, timerActive := true, settled := none }

/-- The timer callback: fires only if the timer was not cleared; deletes the
map entry and rejects the promise (a settled promise stays settled). -/
def timeoutFire (s : EntryState) : EntryState :=
  if s.timerActive then
    { inMap := false, timerActive := false,
      settled := some (s.settled.getD Outcome.timedOut) }
  else s

/-- The response-event path: looks the entry up; when found, clears the
timer, deletes the entry and resolves; when not found, a logged no-op.
Returns whether an entry was found (the table contract's boolean). -/
def resolveStep (s : EntryState) : EntryState × Bool :=
  if s.inMap then
    ({ inMap := false, timerActive := false,
       settled := some (s.settled.getD Outcome.resolved) }, true)
  else (s, false)

inductive PendingEvent where
  | timeout : PendingEvent
  | response : PendingEvent
deriving DecidableEq

def applyEvent : PendingEvent → EntryState → EntryState
  | .timeout, s => timeoutFire s
  | .response, s => (resolveStep s).1

def runEvents : List PendingEvent → EntryState → EntryState
  | [], s => s
  | e :: tr, s => runEvents tr (applyEvent e s)

def eventOutcome : PendingEvent → Outcome
  | .timeout => .timedOut
  | .response => .resolved

/-! ### JS Map on string keys (the `pending` map) -/

def mapGet {α : Type} : List (String × α) → String → Option α
  | [], _ => none
  | (k2, v) :: tl, k => if k2 = k then some v else mapGet tl k

def mapSet {α : Type} : List (String × α) → String → α → List (String × α)
  | [], k, v => [(k, v)]
  | (k2, w) :: tl, k, v =>
    if k2 = k then (k2, v) :: tl else (k2, w) :: mapSet tl k v

def mapDelete {α : Type} : List (String × α) → String → List (String × α)
  | [], _ => []
  | (k2, w) :: tl, k => if k2 = k then tl else (k2, w) :: mapDelete tl k

theorem mapDelete_mapSet_fresh {α : Type} (m : List (String × α)) (k : String) (v : α)
    (h : mapGet m k = none) : mapDelete (mapSet m k v) k = m := by
  induction m with
  | nil => simp [mapGet, mapSet, mapDelete]
  | cons hd tl ih =>
    obtain ⟨k2, w⟩ := hd
    by_cases hk : k2 = k
    · simp [mapGet, hk] at h
    · simp only [mapGet, hk, if_neg hk, ite_false] at h
      simp [mapSet, mapDelete, hk, ih h]

theorem mapGet_mapSet_same {α : Type} (m : List (String × α)) (k : String) (v : α) :
    mapGet (mapSet m k v) k = some v := by
  induction m with
  | nil => simp [mapGet, mapSet]
  | cons hd tl ih =>
    obtain ⟨k2, w⟩ := hd
    by_cases hk : k2 = k
    · simp [mapGet, mapSet, hk]
    · simp [mapGet, mapSet, hk, ih]

/-! ### Request gateway: handleInvoke -/

/-- A `json({error: msg}, status)` body. -/
def jsonError (msg : String) : Json := .obj (.cons "error" (.str msg) .nil)

/-- Default of awaitResponse's `timeoutMs` parameter (proxy-server.ts
line 113: `timeoutMs = 30_000`). -/
def awaitResponseDefaultTimeoutMs : Nat := 30000

structure InvokeResult where
  status : Int
  body : Json
  published : List Json
  pending : List (String × Bool)
  clearedTimer : Bool
  registeredTimeoutMs : Option Nat
deriving DecidableEq

/-- handleInvoke (proxy-server.ts lines 132-198).

Parameters model: the query params after readInvokeParams' empty-to-undefined
normalization, the readiness store (`isReady`), the fresh uuid, the HTTP
method, the parsed request body (lines 150-158, abstracted to its result),
the prior pending map (entries carry their timer-active flag), whether the
transport publish succeeds, and the eventual settlement of the awaited
promise (`none` = rejection, i.e. timeout).  `published` records every
envelope handed to the transport; `pending` tracks handleInvoke's own map
mutations (registration, and the failure-path cleanup); settlement effects on
the map belong to the event router / timer, modelled by the entry machine. -/
def handleInvoke (clientId path : Option String) (isReady : String → Bool)
    (requestId : String) (method : String) (reqBody : Json)
    (pending0 : List (String × Bool)) (publishOk : Bool)
    (awaitResult : Option (Int × Json)) : InvokeResult :=
  match clientId, path with
  | some c, some p =>
    if isReady c then
      let message := encodeRequestEnvelope
        { requestId := requestId, method := method, path := p, body := reqBody }
      let pending1 := mapSet pending0 requestId true
      if publishOk then
        match awaitResult with
        | some (st, b) =>
          { status := st, body := b, published := [message], pending := pending1,
            clearedTimer := false,
            registeredTimeoutMs := some awaitResponseDefaultTimeoutMs }
        | none =>
          { status := 504, body := jsonError "Gateway Timeout",
            published := [message], pending := pending1, clearedTimer := false,
            registeredTimeoutMs := some awaitResponseDefaultTimeoutMs }
      else
        match mapGet pending1 requestId with
        | some _ =>
          { status := 502, body := jsonError "Failed to publish to PubSub",
            published := [message], pending := mapDelete pending1 requestId,
            clearedTimer := true,
            registeredTimeoutMs := some awaitResponseDefaultTimeoutMs }
        | none =>
          { status := 502, body := jsonError "Failed to publish to PubSub",
            published := [message], pending := pending1, clearedTimer := false,
            registeredTimeoutMs := some awaitResponseDefaultTimeoutMs }
    else
      { status := 409, body := jsonError "Client not ready", published := [],
        pending := pending0, clearedTimer := false, registeredTimeoutMs := none }
  | _, _ =>
    { status := 400,
      body := jsonError "Missing required query params: clientId and path",
      published := [], pending := pending0, clearedTimer := false,
      registeredTimeoutMs := none }

/-! ### Configuration (proxy-server.ts lines 7-16) -/

structure ProxyConfig where
  connectionString : String
  authToken : String
  allowedClientIds : List String
  readyStore : String
  redisUrl : String
deriving DecidableEq

/-- Environment-derived configuration.  PORT and the random INSTANCE_ID are
omitted (no verified handler depends on them).  Note the source reads no
request-timeout input. -/
def loadConfig (env : String → Option String) : ProxyConfig :=
  { connectionString := (env "PUBSUB_CONNECTION_STRING").getD ""
    authToken := (env "AUTH_TOKEN").getD ""
    allowedClientIds :=
      ((((env "ALLOWED_CLIENT_IDS").getD "").splitOn ",").map String.trim).filter
        (fun s => s ≠ "")
    readyStore := ((env "READY_STORE").getD "memory").toLower
    redisUrl := (env "REDIS_URL").getD "" }

/-- The timeout a handleInvoke registration uses: awaitResponse is called
with a single argument (line 170), so the parameter default applies
whatever the configuration is. -/
def invokeTimeoutMs (_cfg : ProxyConfig) : Nat := awaitResponseDefaultTimeoutMs

/-! ### Event router: handleEvents (proxy-server.ts lines 204-281) -/

/-- hubFromSource (lines 209-215): take what follows "/hubs/" up to the
next "/". -/
def hubFromSource (ceSource : String) : String :=
  let parts := ceSource.splitOn "/hubs/"
  if parts.length > 1 then
    match ((parts.get? 1).getD "").splitOn "/" with
    | s :: _ => s
    | [] => ""
  else ""

/-- The router's side effects on shared state: its map mutations, the
resolutions delivered to waiting promises, the timers cleared, and the
readiness-store writes. -/
structure EventEffects where
  pending : List (String × Bool)
  resolutions : List (String × Int × Json)
  clearedTimers : List String
  readyUpdates : List (String × Bool)
deriving DecidableEq

def noEffects (pending0 : List (String × Bool)) : EventEffects :=
  { pending := pending0, resolutions := [], clearedTimers := [], readyUpdates := [] }

/-- The branch dispatch of handleEvents (lines 222-278). -/
def handleEventsCore (responseHub : String) (ceType ceHub ceSource : String)
    (raw : String) (pending0 : List (String × Bool)) : EventEffects :=
  let hub := if ceHub = "" then hubFromSource ceSource else ceHub
  let payload := parseJSONStr raw
  if ceType = "azure.webpubsub.user.message" ∧ hub = responseHub then
    match payload.getProp "type", payload.getProp "requestId" with
    | some (.str t), some (.str rid) =>
      if t = "response" then
        let status : Int :=
          match payload.getProp "status" with
          | some (.num n) => n
          | _ => 200
        match mapGet pending0 rid with
        | some _ =>
          { pending := mapDelete pending0 rid,
            resolutions := [(rid, status, (payload.getProp "body").getD .null)],
            clearedTimers := [rid], readyUpdates := [] }
        | none => noEffects pending0
      else noEffects pending0
    | _, _ => noEffects pending0
  else if ceType = "azure.webpubsub.user.message" ∧ hub = "system" then
    match payload.getProp "type", payload.getProp "clientId" with
    | some (.str t), some (.str cid) =>
      if t = "init" then
        { pending := pending0, resolutions := [], clearedTimers := [],
          readyUpdates := [(cid, true)] }
      else noEffects pending0
    | _, _ => noEffects pending0
  else noEffects pending0

structure EventsResult where
  status : Int
  body : Option Json
  effects : EventEffects
deriving DecidableEq

/-- handleEvents: run the dispatch, then acknowledge with
`new Response(null, 200)` (line 280) whatever happened. -/
def handleEvents (responseHub : String) (ceType ceHub ceSource : String)
    (raw : String) (pending0 : List (String × Bool)) : EventsResult :=
  { status := 200, body := none,
    effects := handleEventsCore responseHub ceType ceHub ceSource raw pending0 }

/-! ### Access issuer: handleAuth (proxy-server.ts lines 310-362) -/

/-- verifyApiKey (lines 310-315): anonymous when no AUTH_TOKEN is set,
else the x-api-key header must equal it. -/
def verifyApiKey (authToken : String) (xApiKey : Option String) : Bool :=
  if authToken = "" then true
  else xApiKey.getD "" == authToken

/-- isClientAllowed (lines 320-323): an empty allow-list permits everyone. -/
def isClientAllowed (allowedClientIds : List String) (clientId : String) : Bool :=
  if allowedClientIds.length = 0 then true
  else allowedClientIds.contains clientId

/-- JS truthiness of a JSON value. -/
def jsTruthy : Json → Bool
  | .null => false
  | .bool b => b
  | .num n => decide (n ≠ 0)
  | .str s => decide (s ≠ "")
  | .arr _ => true
  | .obj _ => true

mutual

/-- JS String(...) conversion (array element conversion approximated:
null prints as "null"). -/
def jsToString : Json → String
  | .null => "null"
  | .bool true => "true"
  | .bool false => "false"
  | .num n => String.mk (intChars n)
  | .str s => s
  | .arr xs => jsToStringArr xs
  | .obj _ => "[object Object]"

def jsToStringArr : JsonArr → String
  | .nil => ""
  | .cons v .nil => jsToString v
  | .cons v vs => jsToString v ++ "," ++ jsToStringArr vs

end

/-- clientId extraction (lines 332-336): `String(body?.clientId || "")`;
`none` models a JSON body that failed to parse (clientId stays ""). -/
def clientIdOf (body : Option Json) : String :=
  match body with
  | none => ""
  | some b =>
    let v := (b.getProp "clientId").getD .null
    if jsTruthy v then jsToString v else ""

structure AuthResult where
  status : Int
  body : Json
deriving DecidableEq

/-- handleAuth (lines 329-362).  `mint` models getClientAccessToken for the
system hub: a minted url, or a thrown error (which also covers the
`!t.url` throw inside `make`). -/
def handleAuth (authToken : String) (allowedClientIds : List String)
    (xApiKey : Option String) (body : Option Json)
    (mint : Except String String) : AuthResult :=
  if verifyApiKey authToken xApiKey = false then
    { status := 401, body := jsonError "Unauthorized" }
  else
    let clientId := clientIdOf body
    if clientId = "" then
      { status := 400, body := jsonError "clientId is required" }
    else if isClientAllowed allowedClientIds clientId = false then
      { status := 403, body := jsonError "Forbidden clientId" }
    else
      match mint with
      | .ok url =>
        { status := 200,
          body := .obj (.cons "system"
              (.obj (.cons "hub" (.str "system") (.cons "url" (.str url) .nil)))
            (.cons "userId" (.str ("client:" ++ clientId)) .nil)) }
      | .error _ => { status := 502, body := jsonError "Failed to mint access token" }

/-! ### Remote forwarder (echo.ts lines 300-384) -/

/-- JS String.includes for a non-empty needle. -/
def strIncludes (s sub : String) : Bool := (s.splitOn sub).length > 1

/-- joinUrl (lines 300-304). -/
def joinUrl (base path : String) : String :=
  if ¬base.endsWith "/" ∧ ¬path.startsWith "/" then base ++ "/" ++ path
  else if base.endsWith "/" ∧ path.startsWith "/" then base ++ path.drop 1
  else base ++ path

/-- The local fetch response as the forwarder consumes it; `jsonResult =
none` models a `resp.json()` that throws (falling back to text). -/
structure FetchResp where
  status : Int
  contentType : String
  jsonResult : Option Json
  textResult : String
deriving DecidableEq

/-- Response body selection (lines 331-337). -/
def fetchRespBody (resp : FetchResp) : Json :=
  if strIncludes resp.contentType "application/json" then
    match resp.jsonResult with
    | some j => j
    | none => .str resp.textResult
  else .str resp.textResult

/-- Diagnostic error body (line 342): `String(err?.message || err ||
"Unknown error")`; an empty thrown message falls back to the default. -/
def errorBody (msg : String) : Json :=
  .obj (.cons "error" (.str (if msg = "" then "Unknown error" else msg)) .nil)

/-- forwardToLocal (lines 319-344): build the local call from
method/path/body, await it, and always wrap the outcome in a response
envelope carrying the incoming requestId; a thrown fetch yields status 500
with a diagnostic body.  `theFetch` models the local HTTP call: url, method
and optional serialized body map to a thrown message or a response. -/
def forwardToLocal (localApiUrl : String) (reqMsg : RequestEnvelope)
    (theFetch : String → String → Option String → Except String FetchResp) :
    ResponseEnvelope :=
  let url := joinUrl localApiUrl reqMsg.path
  let method := (if reqMsg.method = "" then "GET" else reqMsg.method).toUpper
  let bodyStr : Option String :=
    if reqMsg.body ≠ Json.null ∧ method ≠ "GET" ∧ method ≠ "HEAD" then
      some (Json.stringify reqMsg.body)
    else none
  match theFetch url method bodyStr with
  | .error m =>
    { requestId := reqMsg.requestId, status := 500, body := errorBody m }
  | .ok resp =>
    { requestId := reqMsg.requestId, status := resp.status, body := fetchRespBody resp }

/-- The sendToGroup frame built for a response (echo.ts line 372). -/
def wsOutboundFrame (r : ResponseEnvelope) : Json :=
  .obj (.cons "type" (.str "sendToGroup")
    (.cons "group" (.str "server")
      (.cons "dataType" (.str "json")
        (.cons "data" (encodeResponseEnvelope r) .nil))))

/-- onMessage (echo.ts lines 349-384): classify the frame and, for a request
payload, forward it and send exactly one response frame.  Returns the list
of frames written to the socket.  A raw that fails JSON.parse throws and is
caught by the outer try/catch (no send).  The source casts the payload
`as RequestEnvelope` unchecked; payloads that do not carry the declared
string fields are outside the envelope type and yield no send here. -/
def onMessageSends (localApiUrl : String) (raw : String)
    (theFetch : String → String → Option String → Except String FetchResp) :
    List Json :=
  match Json.parse raw with
  | none => []
  | some msg =>
    if msg.getProp "type" = some (.str "system") ∧
        msg.getProp "event" = some (.str "connected") then []
    else if msg.getProp "type" = some (.str "ack") then []
    else if msg.getProp "type" = some (.str "message") then
      let payload0 := (msg.getProp "data").getD .null
      let payload :=
        if msg.getProp "dataType" = some (.str "text") then
          match payload0 with
          | .str s => parseJSONStr s
          | v => v
        else payload0
      if payload.getProp "type" = some (.str "request") then
        match decodeRequestEnvelope payload with
        | some reqMsg => [wsOutboundFrame (forwardToLocal localApiUrl reqMsg theFetch)]
        | none => []
      else []
    else []

/-- A transport frame delivering a request envelope as a json-typed data
message (what the forwarder's subscription receives). -/
def wsRequestMessage (e : RequestEnvelope) : Json :=
  .obj (.cons "type" (.str "message")
    (.cons "dataType" (.str "json")
      (.cons "data" (encodeRequestEnvelope e) .nil)))

/-! ### Claim theorems -/

/-- C1: for every correlationId registered in the pending table, whichever
settlement path fires first (timer expiry or a matching response event)
wins: after that event and any further interleaving of the two paths, the
promise is settled exactly with the first event's outcome (never both,
never neither once a path fires), the map entry is removed and the timer is
inactive (resolve clears the timer, timeout deletes the entry), and a
subsequent resolve attempt finds no entry and is a no-op returning false. -/
theorem c1_pending_exactly_once (e : PendingEvent) (tr : List PendingEvent) :
    (runEvents tr (applyEvent e registered)).settled = some (eventOutcome e) ∧
    (runEvents tr (applyEvent e registered)).inMap = false ∧
    (runEvents tr (applyEvent e registered)).timerActive = false ∧
    resolveStep (runEvents tr (applyEvent e registered)) =
      (runEvents tr (applyEvent e registered), false) := by
  have hdead : applyEvent e registered =
      { inMap := false, timerActive := false, settled := some (eventOutcome e) } := by
    cases e <;> rfl
  have habsorb : ∀ (tr2 : List PendingEvent) (o : Outcome),
      runEvents tr2 { inMap := false, timerActive := false, settled := some o }
        = { inMap := false, timerActive := false, settled := some o } := by
    intro tr2 o
    induction tr2 with
    | nil => rfl
    | cons e2 tl ih =>
      have hstep : applyEvent e2
          { inMap := false, timerActive := false, settled := some o }
          = { inMap := false, timerActive := false, settled := some o } := by
        cases e2 <;> simp [applyEvent, timeoutFire, resolveStep]
      simp [runEvents, hstep, ih]
  rw [hdead, habsorb]
  exact ⟨rfl, rfl, rfl, by simp [resolveStep]⟩

/-- C2: when the readiness registry reports the target worker not ready,
handleInvoke answers 409 and publishes nothing: the readiness check returns
before the envelope is built and published, so the publish list is empty
and the pending table is untouched. -/
theorem c2_not_ready_409_no_publish (c p : String) (isReady : String → Bool)
    (requestId method : String) (reqBody : Json)
    (pending0 : List (String × Bool)) (publishOk : Bool)
    (awaitResult : Option (Int × Json)) (h : isReady c = false) :
    (handleInvoke (some c) (some p) isReady requestId method reqBody pending0
      publishOk awaitResult).status = 409 ∧
    (handleInvoke (some c) (some p) isReady requestId method reqBody pending0
      publishOk awaitResult).published = [] ∧
    (handleInvoke (some c) (some p) isReady requestId method reqBody pending0
      publishOk awaitResult).pending = pending0 := by
  simp [handleInvoke, h]

theorem c2_not_ready_409_no_publish_witness :
    (handleInvoke (some "w1") (some "/hello") (fun _ => false) "r1" "POST"
      Json.null [] true none).status = 409 ∧
    (handleInvoke (some "w1") (some "/hello") (fun _ => false) "r1" "POST"
      Json.null [] true none).published = [] ∧
    (handleInvoke (some "w1") (some "/hello") (fun _ => false) "r1" "POST"
      Json.null [] true none).pending = [] :=
  c2_not_ready_409_no_publish "w1" "/hello" (fun _ => false) "r1" "POST"
    Json.null [] true none rfl

/-- C3: when the transport publish throws, handleInvoke removes the
just-registered entry (clearing its timer and deleting it, leaving the
table exactly as before the call, given a fresh requestId) and answers 502
with the PublishFailed body — a status distinct from the 504 produced when
the publish succeeds but the await rejects on timeout. -/
theorem c3_publish_failure_cleanup (c p : String) (isReady : String → Bool)
    (requestId method : String) (reqBody : Json)
    (pending0 : List (String × Bool)) (awaitResult : Option (Int × Json))
    (hready : isReady c = true) (hfresh : mapGet pending0 requestId = none) :
    (handleInvoke (some c) (some p) isReady requestId method reqBody pending0
      false awaitResult).status = 502 ∧
    (handleInvoke (some c) (some p) isReady requestId method reqBody pending0
      false awaitResult).body = jsonError "Failed to publish to PubSub" ∧
    (handleInvoke (some c) (some p) isReady requestId method reqBody pending0
      false awaitResult).pending = pending0 ∧
    (handleInvoke (some c) (some p) isReady requestId method reqBody pending0
      false awaitResult).clearedTimer = true ∧
    (502 : Int) ≠ 504 ∧
    (handleInvoke (some c) (some p) isReady requestId method reqBody pending0
      true none).status = 504 := by
  refine ⟨?_, ?_, ?_, ?_, by decide, by simp [handleInvoke, hready]⟩ <;>
    simp [handleInvoke, hready, mapGet_mapSet_same,
      mapDelete_mapSet_fresh pending0 requestId true hfresh]

theorem c3_publish_failure_cleanup_witness :
    (handleInvoke (some "w1") (some "/hello") (fun _ => true) "r1" "POST"
      Json.null [("other", true)] false none).status = 502 ∧
    (handleInvoke (some "w1") (some "/hello") (fun _ => true) "r1" "POST"
      Json.null [("other", true)] false none).body
        = jsonError "Failed to publish to PubSub" ∧
    (handleInvoke (some "w1") (some "/hello") (fun _ => true) "r1" "POST"
      Json.null [("other", true)] false none).pending = [("other", true)] ∧
    (handleInvoke (some "w1") (some "/hello") (fun _ => true) "r1" "POST"
      Json.null [("other", true)] false none).clearedTimer = true ∧
    (502 : Int) ≠ 504 ∧
    (handleInvoke (some "w1") (some "/hello") (fun _ => true) "r1" "POST"
      Json.null [("other", true)] true none).status = 504 :=
  c3_publish_failure_cleanup "w1" "/hello" (fun _ => true) "r1" "POST"
    Json.null [("other", true)] none rfl (by decide)

/-- C4: handleEvents acknowledges every possible input — any header values,
any raw body (malformed JSON included), any pending-table state — with HTTP
status 200 and an empty body; no internal outcome reaches the transport as
an error status. -/
theorem c4_events_always_ack_200 (responseHub ceType ceHub ceSource raw : String)
    (pending0 : List (String × Bool)) :
    (handleEvents responseHub ceType ceHub ceSource raw pending0).status = 200 ∧
    (handleEvents responseHub ceType ceHub ceSource raw pending0).body = none :=
  ⟨rfl, rfl⟩

/-- C5: a response event whose correlationId matches no pending entry
(already timed out, already resolved, or never registered) leaves the
pending table exactly as it was — no entry for any correlationId is
removed, resolved or mutated, no timer cleared — and the router still
acknowledges 200 without error. -/
theorem c5_unknown_correlation_noop (responseHub ceType ceHub ceSource raw rid : String)
    (pending0 : List (String × Bool))
    (htype : (parseJSONStr raw).getProp "type" = some (.str "response"))
    (hrid : (parseJSONStr raw).getProp "requestId" = some (.str rid))
    (hmiss : mapGet pending0 rid = none) :
    handleEvents responseHub ceType ceHub ceSource raw pending0 =
      { status := 200, body := none, effects := noEffects pending0 } := by
  simp only [handleEvents, handleEventsCore, htype, hrid, hmiss]
  simp [noEffects]
  intro _ _ _
  cases hcid : (parseJSONStr raw).getProp "clientId" with
  | none => simp
  | some v => cases v <;> simp

theorem c5_unknown_correlation_noop_witness :
    handleEvents "response-i1" "azure.webpubsub.user.message" "response-i1"
        "/client/hubs/response-i1" "\x7b\"type\":\"response\",\"requestId\":\"r9\"\x7d"
        [("a", true)] =
      { status := 200, body := none, effects := noEffects [("a", true)] } :=
  c5_unknown_correlation_noop "response-i1" "azure.webpubsub.user.message"
    "response-i1" "/client/hubs/response-i1"
    "\x7b\"type\":\"response\",\"requestId\":\"r9\"\x7d" "r9" [("a", true)]
    rfl rfl rfl

theorem forwardToLocal_requestId (u : String) (e : RequestEnvelope)
    (f : String → String → Option String → Except String FetchResp) :
    (forwardToLocal u e f).requestId = e.requestId := by
  unfold forwardToLocal
  dsimp only
  split <;> rfl

/-- C6: delivering a request envelope to the forwarder produces exactly one
outbound response frame, whose envelope carries the incoming requestId; and
when the local HTTP call throws, the envelope still exists with status 500
and a body carrying the diagnostic message — a received request is never
silently dropped. -/
theorem c6_forwarder_one_response (localApiUrl : String) (e : RequestEnvelope)
    (theFetch : String → String → Option String → Except String FetchResp)
    (m : String) :
    onMessageSends localApiUrl (Json.stringify (wsRequestMessage e)) theFetch =
      [wsOutboundFrame (forwardToLocal localApiUrl e theFetch)] ∧
    (forwardToLocal localApiUrl e theFetch).requestId = e.requestId ∧
    (forwardToLocal localApiUrl e (fun _ _ _ => Except.error m)).status = 500 ∧
    (forwardToLocal localApiUrl e (fun _ _ _ => Except.error m)).body = errorBody m := by
  refine ⟨?_, forwardToLocal_requestId localApiUrl e theFetch, rfl, rfl⟩
  unfold onMessageSends
  rw [json_parse_stringify (wsRequestMessage e)]
  have h1 : (wsRequestMessage e).getProp "type" = some (.str "message") := rfl
  have h3 : (wsRequestMessage e).getProp "dataType" = some (.str "json") := rfl
  have h4 : (wsRequestMessage e).getProp "data" = some (encodeRequestEnvelope e) := rfl
  have h5 : (encodeRequestEnvelope e).getProp "type" = some (.str "request") := rfl
  simp [h1, h3, h4, h5, decodeRequest_encode]

/-- C7: on /auth, a configured API key that the x-api-key header fails to
match yields 401; past the key check, a supplied clientId absent from a
non-empty allow-list yields 403; and an empty allow-list admits every
identity. -/
theorem c7_auth_key_and_allowlist (authToken : String) (allowed : List String)
    (xApiKey : Option String) (body : Option Json) (mint : Except String String)
    (c : String) :
    (authToken ≠ "" → xApiKey.getD "" ≠ authToken →
      (handleAuth authToken allowed xApiKey body mint).status = 401) ∧
    (verifyApiKey authToken xApiKey = true → clientIdOf body ≠ "" →
      allowed ≠ [] → allowed.contains (clientIdOf body) = false →
      (handleAuth authToken allowed xApiKey body mint).status = 403) ∧
    isClientAllowed [] c = true := by
  refine ⟨?_, ?_, rfl⟩
  · intro h1 h2
    have hv : verifyApiKey authToken xApiKey = false := by
      simp [verifyApiKey, h1, h2]
    simp [handleAuth, hv]
  · intro hv hcid hne hcontains
    have hallow : isClientAllowed allowed (clientIdOf body) = false := by
      unfold isClientAllowed
      rw [if_neg (fun h => hne (List.length_eq_zero.mp h)), hcontains]
    simp [handleAuth, hv, hcid, hallow]

theorem c7_auth_key_and_allowlist_witness :
    (handleAuth "k1" ["w1"] (some "bad")
      (some (Json.obj (.cons "clientId" (.str "w2") .nil))) (.ok "u")).status = 401 ∧
    (handleAuth "" ["w1"] none
      (some (Json.obj (.cons "clientId" (.str "w2") .nil))) (.ok "u")).status = 403 ∧
    isClientAllowed [] "anyone" = true :=
  ⟨(c7_auth_key_and_allowlist "k1" ["w1"] (some "bad")
      (some (Json.obj (.cons "clientId" (.str "w2") .nil))) (.ok "u") "anyone").1
      (by decide) (by decide),
   (c7_auth_key_and_allowlist "" ["w1"] none
      (some (Json.obj (.cons "clientId" (.str "w2") .nil))) (.ok "u") "anyone").2.1
      rfl (by decide) (by decide) (by decide),
   (c7_auth_key_and_allowlist "" [] none none (.ok "u") "anyone").2.2⟩

/-- C8: serializing an envelope exactly as `publish` does
(`JSON.stringify`) and feeding the result through the router's tolerant
parse step (`parseJSON`, which accepts both an already-structured object and
an encoded string) yields a value equal to the original envelope — both at
the JSON level and after extracting the envelope fields — for every
Request/Response Envelope of the declared shape. -/
theorem c8_envelope_roundtrip (e : RequestEnvelope) (r : ResponseEnvelope) :
    parseJSON (.str (Json.stringify (encodeRequestEnvelope e)))
      = encodeRequestEnvelope e ∧
    decodeRequestEnvelope
        (parseJSON (.str (Json.stringify (encodeRequestEnvelope e)))) = some e ∧
    parseJSON (.str (Json.stringify (encodeResponseEnvelope r)))
      = encodeResponseEnvelope r ∧
    decodeResponseEnvelope
        (parseJSON (.str (Json.stringify (encodeResponseEnvelope r)))) = some r ∧
    parseJSON (encodeRequestEnvelope e) = encodeRequestEnvelope e ∧
    parseJSON (encodeResponseEnvelope r) = encodeResponseEnvelope r := by
  refine ⟨parseJSON_str_stringify _, ?_, parseJSON_str_stringify _, ?_, rfl, rfl⟩
  · rw [parseJSON_str_stringify]
    exact decodeRequest_encode e
  · rw [parseJSON_str_stringify]
    exact decodeResponse_encode r

/-- C9 counterexample: the claim says the timeout used by handleInvoke
follows a request-timeout environment configuration input.  But the
configuration the source reads has no such input, and handleInvoke calls
awaitResponse without a timeout argument: even under an environment that
sets every variable to "5000", the registered timeout is still 30000 ms. -/
theorem c9_timeout_not_configurable_counterexample :
    invokeTimeoutMs (loadConfig (fun _ => some "5000")) = 30000 ∧
    (30000 : Nat) ≠ 5000 :=
  ⟨rfl, by decide⟩

/-- C9 (amended): every Pending Entry that handleInvoke registers uses the
awaitResponse parameter default of 30000 ms, which lies in the 10-30 second
range; the timeout is a hardcoded default, identical under every
configuration — it is not driven by any environment input. -/
theorem c9_timeout_default_in_range (cfg : ProxyConfig) (c p : String)
    (isReady : String → Bool) (requestId method : String) (reqBody : Json)
    (pending0 : List (String × Bool)) (publishOk : Bool)
    (awaitResult : Option (Int × Json)) (hready : isReady c = true) :
    10000 ≤ awaitResponseDefaultTimeoutMs ∧
    awaitResponseDefaultTimeoutMs ≤ 30000 ∧
    invokeTimeoutMs cfg = awaitResponseDefaultTimeoutMs ∧
    (handleInvoke (some c) (some p) isReady requestId method reqBody pending0
      publishOk awaitResult).registeredTimeoutMs
        = some awaitResponseDefaultTimeoutMs := by
  refine ⟨by decide, by decide, rfl, ?_⟩
  cases publishOk with
  | true =>
    cases awaitResult with
    | none => simp [handleInvoke, hready]
    | some sb => simp [handleInvoke, hready]
  | false =>
    simp only [handleInvoke, hready, if_true]
    cases hg : mapGet (mapSet pending0 requestId true) requestId <;> simp [hg]

theorem c9_timeout_default_in_range_witness :
    10000 ≤ awaitResponseDefaultTimeoutMs ∧
    awaitResponseDefaultTimeoutMs ≤ 30000 ∧
    invokeTimeoutMs (loadConfig (fun _ => none)) = awaitResponseDefaultTimeoutMs ∧
    (handleInvoke (some "w1") (some "/hello") (fun _ => true) "r1" "POST"
      Json.null [] true none).registeredTimeoutMs
        = some awaitResponseDefaultTimeoutMs :=
  c9_timeout_default_in_range (loadConfig (fun _ => none)) "w1" "/hello"
    (fun _ => true) "r1" "POST" Json.null [] true none rfl

/-- C10: a response event that matches a pending entry but whose status
field is missing or not a number settles the entry with status 200 (and
with body null when the body field is absent, via the getD default) instead
of being rejected or dropped: the entry is removed, its timer cleared, and
exactly one resolution with status 200 is delivered. -/
theorem c10_malformed_status_defaults_200 (responseHub ceType ceHub ceSource
      raw rid : String) (pending0 : List (String × Bool)) (tv : Bool)
    (hct : ceType = "azure.webpubsub.user.message")
    (hhub : ceHub = responseHub) (hne : ceHub ≠ "")
    (htype : (parseJSONStr raw).getProp "type" = some (.str "response"))
    (hrid : (parseJSONStr raw).getProp "requestId" = some (.str rid))
    (hfound : mapGet pending0 rid = some tv)
    (hstatus : ∀ n : Int, (parseJSONStr raw).getProp "status" ≠ some (.num n)) :
    handleEvents responseHub ceType ceHub ceSource raw pending0 =
      { status := 200, body := none,
        effects :=
          { pending := mapDelete pending0 rid,
            resolutions := [(rid, 200, ((parseJSONStr raw).getProp "body").getD .null)],
            clearedTimers := [rid], readyUpdates := [] } } := by
  have hst : (match (parseJSONStr raw).getProp "status" with
      | some (.num n) => n
      | _ => (200 : Int)) = 200 := by
    cases hs : (parseJSONStr raw).getProp "status" with
    | none => rfl
    | some v =>
      cases v with
      | num n => exact absurd hs (hstatus n)
      | null => rfl
      | bool b => rfl
      | str s => rfl
      | arr xs => rfl
      | obj fs => rfl
  subst hct
  subst hhub
  simp only [handleEvents, handleEventsCore, if_neg hne]
  simp [htype, hrid, hfound, hst]

theorem c10_malformed_status_defaults_200_witness :
    handleEvents "response-i1" "azure.webpubsub.user.message" "response-i1"
        "/client/hubs/response-i1" "\x7b\"type\":\"response\",\"requestId\":\"r1\"\x7d"
        [("r1", true)] =
      { status := 200, body := none,
        effects :=
          { pending := [],
            resolutions := [("r1", 200, Json.null)],
            clearedTimers := ["r1"], readyUpdates := [] } } := by
  have h := c10_malformed_status_defaults_200 "response-i1"
    "azure.webpubsub.user.message" "response-i1" "/client/hubs/response-i1"
    "\x7b\"type\":\"response\",\"requestId\":\"r1\"\x7d" "r1" [("r1", true)] true
    rfl rfl (by decide) rfl rfl rfl
    (fun n hn => by
      rw [show (parseJSONStr
        "\x7b\"type\":\"response\",\"requestId\":\"r1\"\x7d").getProp "status"
          = none from rfl] at hn
      exact Option.noConfusion hn)
  rw [h]
  rfl
